import Mathlib

/-!
Verification of the per-call media pipeline of the italian-phone-proxy
repository against its natural-language specification.

The Python source under `src/api/app/` is embedded shallowly:
pure functions become Lean functions, the stateful segmenter and the
scheduled-action table become explicit state passing, wall-clock
readings (`time.time()`) become an explicit `now : ℚ` argument
(seconds), and results of external C libraries (`audioop`) are passed
in as arguments.  Machine floats of the source carry exact decimal
constants, so they are modelled as rationals.
-/

/- ====================================================================
   Section 1: audio segmenter, from src/api/app/services/audio.py
   ==================================================================== -/

/-- Module-level constant `SILENCE_THRESHOLD = 500` (audio.py:26). -/
def SILENCE_THRESHOLD : Nat := 500

/-- Module-level constant `SILENCE_DURATION_MS = 1200` (audio.py:27). -/
def SILENCE_DURATION_MS : ℚ := 1200

/-- Module-level constant `MIN_SPEECH_DURATION_MS = 500` (audio.py:28). -/
def MIN_SPEECH_DURATION_MS : ℚ := 500

/-- State of `AudioBuffer` (audio.py:31-48): configuration fields plus
the mutable segmentation state.  Byte strings are lists of byte values;
times are seconds as exact rationals. -/
structure AudioBuffer where
  sample_rate : Nat := 8000
  silence_threshold : Nat := SILENCE_THRESHOLD
  silence_duration_ms : ℚ := SILENCE_DURATION_MS
  min_speech_duration_ms : ℚ := MIN_SPEECH_DURATION_MS
  buffer : List Nat := []
  speech_started : Bool := false
  silence_start : Option ℚ := none
  speech_start : Option ℚ := none
  peak_rms : Nat := 0
deriving DecidableEq

/-- `AudioBuffer.reset` (audio.py:50-56): clear buffer and state,
keeping the configuration fields. -/
def resetBuffer (st : AudioBuffer) : AudioBuffer :=
  { st with buffer := [], speech_started := false, silence_start := none,
            speech_start := none, peak_rms := 0 }

/-- `AudioBuffer.add_audio` (audio.py:113-181).  `chunk` is the incoming
mulaw byte string, `now` is the `time.time()` reading in seconds, and
`rms` stands for `audioop.rms(audioop.ulaw2lin(chunk, 2), 2)`: the
external `audioop` C library is not part of this repository, so its
result on `chunk` is supplied as an argument.  Returns the updated
state and the completed utterance bytes, if any. -/
def addAudio (st : AudioBuffer) (chunk : List Nat) (rms : Nat) (now : ℚ) :
    AudioBuffer × Option (List Nat) :=
  if chunk = [] then (st, none)
  else if st.silence_threshold < rms then
    -- speech branch (audio.py:139-153)
    let st1 : AudioBuffer :=
      { st with silence_start := none,
                peak_rms := if st.peak_rms < rms then rms else st.peak_rms }
    let st2 : AudioBuffer :=
      if st1.speech_started then st1
      else { st1 with speech_started := true, speech_start := some now }
    ({ st2 with buffer := st2.buffer ++ chunk }, none)
  else if st.speech_started then
    -- silence branch while speech is active (audio.py:155-179)
    let st1 : AudioBuffer := { st with buffer := st.buffer ++ chunk }
    let st2 : AudioBuffer :=
      if st1.silence_start = none then { st1 with silence_start := some now }
      else st1
    let silenceDuration : ℚ := (now - st2.silence_start.getD now) * 1000
    if st.silence_duration_ms ≤ silenceDuration then
      let speechDuration : ℚ := (now - st2.speech_start.getD now) * 1000
      if st.min_speech_duration_ms ≤ speechDuration then
        (resetBuffer st2, some st2.buffer)
      else
        (resetBuffer st2, none)
    else (st2, none)
  else (st, none)

/-- `AudioBuffer.flush` (audio.py:183-193): return the buffered bytes
whenever the buffer is nonempty and speech is active; no duration check. -/
def flushBuffer (st : AudioBuffer) : AudioBuffer × Option (List Nat) :=
  if st.buffer ≠ [] ∧ st.speech_started then (resetBuffer st, some st.buffer)
  else (st, none)

/-- `AudioBuffer.get_speech_duration_ms` (audio.py:103-111), with the
wall clock passed explicitly; `int(x)` of the nonnegative product is its
floor. -/
def getSpeechDurationMs (st : AudioBuffer) (now : ℚ) : ℤ :=
  match st.speech_start with
  | none => 0
  | some t => ⌊(now - t) * 1000⌋

/-- One incoming media frame: mulaw bytes, the `audioop` RMS value for
those bytes, and the wall-clock instant at which the frame is handled. -/
structure AFrame where
  chunk : List Nat
  rms : Nat
  t : ℚ
deriving DecidableEq

/-- Feed a list of frames through `add_audio` in order, collecting every
emitted utterance (the per-frame loop of the media handler). -/
def runFrames (st : AudioBuffer) : List AFrame → AudioBuffer × List (List Nat)
  | [] => (st, [])
  | f :: fs =>
    let r := addAudio st f.chunk f.rms f.t
    let rest := runFrames r.1 fs
    (rest.1, r.2.toList ++ rest.2)

/-- Fresh segmenter with the given configuration (the `AudioBuffer()`
constructed by the media handler uses the module defaults). -/
def mkBuffer (thresh : Nat) (sil minS : ℚ) : AudioBuffer :=
  { silence_threshold := thresh, silence_duration_ms := sil,
    min_speech_duration_ms := minS }

/- ====================================================================
   Section 2: text helpers and the quick-reply lexicon,
   from src/api/app/prompts/system.py
   ==================================================================== -/

/-- Python `str.lower()` restricted to the ASCII range handled by
`Char.toLower`; every lexicon key and phrase in the source is ASCII. -/
def pyLower (l : List Char) : List Char := l.map Char.toLower

/-- Python `str.strip()`: drop whitespace from both ends. -/
def pyStrip (l : List Char) : List Char :=
  ((l.dropWhile Char.isWhitespace).reverse.dropWhile Char.isWhitespace).reverse

/-- The characters of the Python call `rstrip('.,!?')` (system.py:249). -/
def TRAIL_PUNCT : List Char := ['.', ',', '!', '?']

/-- Python `str.rstrip('.,!?')`: drop those characters from the end. -/
def pyRstripPunct (l : List Char) : List Char :=
  (l.reverse.dropWhile (fun c => TRAIL_PUNCT.contains c)).reverse

/-- The normalisation `text.lower().strip().rstrip('.,!?')` applied by
`get_quick_response` (system.py:249). -/
def normalizeQuick (t : String) : String :=
  ⟨pyRstripPunct (pyStrip (pyLower t.data))⟩

/-- Ordered association-list lookup, the semantics of a Python `dict.get`
with string keys. -/
def alistLookup {α : Type} (k : String) : List (String × α) → Option α
  | [] => none
  | (k1, v) :: rest => if k1 = k then some v else alistLookup k rest

/-- `QUICK_RESPONSES` (system.py:222-240). -/
def QUICK_RESPONSES : List (String × String) :=
  [("pronto", "Pronto. Sì, sono qui. Mi dica."),
   ("buongiorno", "Buongiorno. Mi dica pure."),
   ("buonasera", "Buonasera. Mi dica pure."),
   ("ok", "Perfetto."),
   ("va bene", "Perfetto, grazie."),
   ("d\x27accordo", "Perfetto."),
   ("grazie", "Prego."),
   ("grazie mille", "Prego, grazie a lei."),
   ("arrivederci", "Arrivederci."),
   ("ciao", "Arrivederci.")]

/-- `get_quick_response` (system.py:243-250). -/
def get_quick_response (t : String) : Option String :=
  alistLookup (normalizeQuick t) QUICK_RESPONSES

/- ====================================================================
   Section 3: conversation service, from src/api/app/services/claude.py
   ==================================================================== -/

inductive Role where
  | user
  | assistant
deriving DecidableEq

structure Msg where
  role : Role
  content : String
deriving DecidableEq

/-- `ConversationState` (claude.py:18-41). -/
structure ConversationState where
  call_sid : String
  caller_number : String
  system_prompt : String
  history : List Msg := []
  turn_count : Nat := 0
deriving DecidableEq

/-- `ConversationState.add_caller_message` (claude.py:29-32). -/
def addCallerMessage (st : ConversationState) (text : String) : ConversationState :=
  { st with history := st.history ++ [⟨Role.user, text⟩],
            turn_count := st.turn_count + 1 }

/-- `ConversationState.add_assistant_message` (claude.py:34-37). -/
def addAssistantMessage (st : ConversationState) (text : String) : ConversationState :=
  { st with history := st.history ++ [⟨Role.assistant, text⟩],
            turn_count := st.turn_count + 1 }

/-- `ConversationState.get_messages` (claude.py:39-41): the Python slice
`history[-8:]`, i.e. the whole history when it is shorter than 8. -/
def getMessages (st : ConversationState) : List Msg :=
  st.history.drop (st.history.length - 8)

/-- Python `str.split()` (no argument): split on whitespace runs,
discarding empty pieces. -/
def pySplit (s : String) : List String :=
  (s.split Char.isWhitespace).filter (fun x => x ≠ "")

/-- `ClaudeConversationService._generate_greeting` (claude.py:103-113).
The knowledge dict is represented by the only field the function reads,
`knowledge["identity"]["name"]` (missing key = empty string).  For a
nonempty all-whitespace name the Python code would raise IndexError; the
model returns the greeting with an empty first name there. -/
def generateGreeting (identityName : String) : String :=
  let first := if identityName = "" then "qui" else (pySplit identityName).headD ""
  "Pronto. Sì, sono " ++ first ++ ". " ++
    "Mi scusi, sono inglese e il mio italiano non è perfetto — " ++
    "parlo lentamente ma capisco bene. Mi dica pure."

/-- `ClaudeConversationService.start_conversation` (claude.py:73-101):
fresh state, then the opening greeting recorded as an assistant message.
The system prompt (built by `build_system_prompt` from the knowledge
snapshot) is passed in already built; no claim inspects its text. -/
def startConversation (call_sid caller_number system_prompt identityName : String) :
    ConversationState :=
  addAssistantMessage
    { call_sid := call_sid, caller_number := caller_number,
      system_prompt := system_prompt }
    (generateGreeting identityName)

/-- Outcome of the external LLM API call `self.client.messages.create`:
either a response (whose `content` may be absent, modelling an empty
content list) with its token usage, or a raised `anthropic.APIError`. -/
inductive LLMOutcome where
  | ok (content : Option String) (inputTokens outputTokens : Nat)
  | apiError
deriving DecidableEq

/-- What a `respond` call leaves behind: the returned reply (`none` for
the Python `None`), the conversation state, the service field
`_last_usage`, and whether the external LLM API was invoked. -/
structure RespondResult where
  reply : Option String
  state : ConversationState
  lastUsage : Nat × Nat
  llmCalled : Bool
deriving DecidableEq

/-- The fixed stall phrase of the `except anthropic.APIError` handler
(claude.py:192). -/
def FALLBACK_PHRASE : String := "Mi scusi, un momento per favore."

/-- The LLM leg of `respond` (claude.py:159-194): append the caller
message, call the API, record usage, append the reply when nonempty;
on `APIError` record zero usage and reply with the stall phrase. -/
def respondViaLLM (st : ConversationState) (callerText : String)
    (llm : LLMOutcome) : RespondResult :=
  let st1 := addCallerMessage st callerText
  match llm with
  | .ok content inTok outTok =>
    match content with
    | some t =>
      if t ≠ "" then
        { reply := some t, state := addAssistantMessage st1 t,
          lastUsage := (inTok, outTok), llmCalled := true }
      else
        { reply := some t, state := st1, lastUsage := (inTok, outTok),
          llmCalled := true }
    | none =>
      { reply := none, state := st1, lastUsage := (inTok, outTok),
        llmCalled := true }
  | .apiError =>
    { reply := some FALLBACK_PHRASE,
      state := addAssistantMessage st1 FALLBACK_PHRASE,
      lastUsage := (0, 0), llmCalled := true }

/-- `ClaudeConversationService.respond` (claude.py:126-194) for an
existing conversation `st`; `prevUsage` is the service `_last_usage`
before the call and `llm` the outcome the external API would produce. -/
def respond (st : ConversationState) (prevUsage : Nat × Nat)
    (callerText : String) (llm : LLMOutcome) : RespondResult :=
  if pyStrip callerText.data = [] then
    { reply := none, state := st, lastUsage := prevUsage, llmCalled := false }
  else
    match get_quick_response callerText with
    | some quick =>
      if quick ≠ "" then
        { reply := some quick,
          state := addAssistantMessage (addCallerMessage st callerText) quick,
          lastUsage := (0, 0), llmCalled := false }
      else
        respondViaLLM st callerText llm
    | none => respondViaLLM st callerText llm

/-- The message list `state.get_messages()` passed to the API inside
`respond` (claude.py:168), taken after the caller message is appended. -/
def messagesSentToLLM (st : ConversationState) (callerText : String) : List Msg :=
  getMessages (addCallerMessage st callerText)

/-- The two history-mutating operations of the conversation state. -/
inductive ConvOp where
  | caller (text : String)
  | assistant (text : String)

def applyConvOp (st : ConversationState) : ConvOp → ConversationState
  | .caller t => addCallerMessage st t
  | .assistant t => addAssistantMessage st t

def runConv (st : ConversationState) (ops : List ConvOp) : ConversationState :=
  ops.foldl applyConvOp st

/- ====================================================================
   Section 4: goodbye detection and the media-event handler,
   from src/api/app/routers/twilio.py
   ==================================================================== -/

/-- `GOODBYE_PHRASES` (twilio.py:43-50). -/
def GOODBYE_PHRASES : List String :=
  ["arrivederci", "buona giornata", "buonasera", "a presto",
   "buon proseguimento", "alla prossima"]

/-- Python substring test `needle in hay` on character lists. -/
def containsSub (needle : List Char) : List Char → Bool
  | [] => needle.isEmpty
  | c :: rest => needle.isPrefixOf (c :: rest) || containsSub needle rest

/-- `any(phrase in response_lower for phrase in GOODBYE_PHRASES)`
(twilio.py:305) with `response_lower = response_text.lower()`. -/
def goodbyeInReply (response : String) : Bool :=
  GOODBYE_PHRASES.any (fun p => containsSub p.data (pyLower response.data))

/-- The hangup decision of `process_speech` step 6 (twilio.py:300-309):
hang up only when the caller transcript is not a quick-reply match and
the lowered reply contains a goodbye phrase. -/
def shouldHangup (transcript response : String) : Bool :=
  !(get_quick_response transcript).isSome && goodbyeInReply response

/-- The pre-hangup pause `await asyncio.sleep(3)` (twilio.py:308),
in seconds. -/
def HANGUP_SLEEP_SECONDS : ℚ := 3

/-- The `media` branch of the WebSocket loop (twilio.py:365-383): while
the AI is speaking the frame is skipped entirely; otherwise a present
payload is decoded and fed to the segmenter. -/
def handleMediaEvent (is_speaking : Bool) (st : AudioBuffer)
    (payload : Option (List Nat)) (rms : Nat) (now : ℚ) :
    AudioBuffer × Option (List Nat) :=
  if is_speaking then (st, none)
  else
    match payload with
    | some chunk => addAudio st chunk rms now
    | none => (st, none)

/- ====================================================================
   Section 5: analytics quality checks,
   from src/api/app/services/analytics.py
   ==================================================================== -/

/-- `CONFIDENCE_THRESHOLD = 0.80` (analytics.py:33). -/
def CONFIDENCE_THRESHOLD : ℚ := 4/5

/-- `ECHO_SIMILARITY_THRESHOLD = 0.60` (analytics.py:36). -/
def ECHO_SIMILARITY_THRESHOLD : ℚ := 3/5

/-- `REPEAT_SIMILARITY_THRESHOLD = 0.80` (analytics.py:37). -/
def REPEAT_SIMILARITY_THRESHOLD : ℚ := 4/5

/-- The event kinds `whisper_completed` can emit for one call. -/
inductive AnEvent where
  | whisperCompleted
  | lowConfidence
  | echoDetected
  | repeatDetected
deriving DecidableEq

/-- `AnalyticsService.whisper_completed` (analytics.py:472-531), as the
list of events recorded for the call, in emission order.  `emit` drops
every event when the call has no active session, so `sessionExists`
gates the whole list.  The similarity scores `_check_echo` and
`_check_repeat` are computed with the external `difflib` machinery and
are passed in as functions; the branches guard on the rolling windows
being nonempty exactly as the source does. -/
def whisperCompletedEvents (sessionExists : Bool) (transcript : String)
    (confidence : ℚ) (recentAI : List String)
    (recentCaller : List (Nat × String))
    (echoScore : String → List String → ℚ)
    (repeatScore : String → List (Nat × String) → ℚ × Nat) : List AnEvent :=
  if !sessionExists then []
  else
    [AnEvent.whisperCompleted]
    ++ (if 0 < confidence ∧ confidence < CONFIDENCE_THRESHOLD
        then [AnEvent.lowConfidence] else [])
    ++ (if recentAI ≠ [] ∧ ECHO_SIMILARITY_THRESHOLD ≤ echoScore transcript recentAI
        then [AnEvent.echoDetected] else [])
    ++ (if recentCaller ≠ [] ∧
          REPEAT_SIMILARITY_THRESHOLD ≤ (repeatScore transcript recentCaller).1
        then [AnEvent.repeatDetected] else [])

/- ====================================================================
   Section 6: scheduled location sends,
   from src/api/app/routers/dashboard.py
   ==================================================================== -/

/-- An `asyncio` task created by `schedule_location_send`. -/
structure LocTask where
  id : Nat
  key : String
deriving DecidableEq

/-- State of the scheduled-action manager: the module dict
`pending_location_sends` (key to task id), the ids on which
`Task.cancel()` has been called, every task ever created, and a fresh-id
counter. -/
structure LocState where
  pending : List (String × Nat) := []
  cancelled : List Nat := []
  created : List LocTask := []
  next : Nat := 0
deriving DecidableEq

/-- Remove a key from the dict. -/
def eraseKey (k : String) (l : List (String × Nat)) : List (String × Nat) :=
  l.filter (fun p => p.1 != k)

/-- `schedule_location_send` (dashboard.py:230-281): cancel any existing
task for the key, create a new task and store it under the key. -/
def scheduleLoc (s : LocState) (k : String) : LocState :=
  let cancelled1 :=
    match alistLookup k s.pending with
    | some id => id :: s.cancelled
    | none => s.cancelled
  { pending := (k, s.next) :: eraseKey k s.pending,
    cancelled := cancelled1,
    created := ⟨s.next, k⟩ :: s.created,
    next := s.next + 1 }

/-- `cancel_location_send` (dashboard.py:284-290): cancel and delete the
entry when present, reporting whether anything was cancelled. -/
def cancelLoc (s : LocState) (k : String) : LocState × Bool :=
  match alistLookup k s.pending with
  | some id =>
    ({ s with cancelled := id :: s.cancelled, pending := eraseKey k s.pending },
      true)
  | none => (s, false)

inductive LocOp where
  | schedule (k : String)
  | cancel (k : String)

def applyLocOp (s : LocState) : LocOp → LocState
  | .schedule k => scheduleLoc s k
  | .cancel k => (cancelLoc s k).1

/-- Run a sequence of schedule/cancel operations from the empty module
state. -/
def runLoc (ops : List LocOp) : LocState :=
  ops.foldl applyLocOp {}

/-- The pending actions for a key: created tasks with that key whose
`cancel()` was never called. -/
def pendingFor (s : LocState) (k : String) : List LocTask :=
  s.created.filter (fun t => t.key == k && !(s.cancelled.contains t.id))

/- ====================================================================
   Section 7: configuration bounds,
   from src/api/app/services/system_config.py
   ==================================================================== -/

/-- `ClaudeConfig.context_turns` default (system_config.py:44). -/
def CONTEXT_TURNS_DEFAULT : Nat := 4

/-- Validation range of `claude.context_turns` (system_config.py:161). -/
def CONTEXT_TURNS_MIN : Nat := 1

def CONTEXT_TURNS_MAX : Nat := 20

/- ====================================================================
   Section 8: concrete instances used in counterexamples and witnesses
   ==================================================================== -/

/-- A synthetic stream: one silence frame, a 100 ms tone burst (a single
frame at `t = 1` s with RMS 600, next frame 100 ms later), then silence
lasting past the 1200 ms cutoff. -/
def shortToneFrames : List AFrame :=
  [⟨[0], 0, 0⟩, ⟨[1], 600, 1⟩, ⟨[2], 0, 11/10⟩, ⟨[3], 0, 5/2⟩]

/-- A default-configured segmenter, as constructed by the media handler. -/
def defaultBuffer : AudioBuffer := {}

/-- A conversation with nine history entries (greeting plus four
exchanges), for exercising the context window. -/
def nineTurnConv : ConversationState :=
  { call_sid := "CA1", caller_number := "+390000", system_prompt := "p",
    history :=
      [⟨Role.assistant, "g"⟩, ⟨Role.user, "u1"⟩, ⟨Role.assistant, "a1"⟩,
       ⟨Role.user, "u2"⟩, ⟨Role.assistant, "a2"⟩, ⟨Role.user, "u3"⟩,
       ⟨Role.assistant, "a3"⟩, ⟨Role.user, "u4"⟩, ⟨Role.assistant, "a4"⟩],
    turn_count := 9 }

/-- A manager state holding one live task (id 0) for key `"a"`. -/
def locS0 : LocState :=
  { pending := [("a", 0)], cancelled := [], created := [⟨0, "a"⟩], next := 1 }

/-- The segmenter state just before the emitting frame of the
`shortToneFrames` run: two frames buffered, speech active since
`t = 1` s, silence running since `t = 1.1` s. -/
def preEmitBuffer : AudioBuffer :=
  { buffer := [1, 2], speech_started := true, silence_start := some (11/10),
    speech_start := some 1, peak_rms := 600 }

/- ====================================================================
   Helper lemmas about the segmenter
   ==================================================================== -/

/-- Rewriting aid: a `some` is never `none` (used to reduce the
segmenter's `silence_start` test on concrete states). -/
theorem some_eq_none_false {α : Type} (a : α) : (some a = none) = False :=
  eq_false (fun h => Option.noConfusion h)

theorem runFrames_append (st : AudioBuffer) (xs ys : List AFrame) :
    runFrames st (xs ++ ys) =
      ((runFrames (runFrames st xs).1 ys).1,
        (runFrames st xs).2 ++ (runFrames (runFrames st xs).1 ys).2) := by
  induction xs generalizing st with
  | nil => simp [runFrames]
  | cons f fs ih => simp [runFrames, ih, List.append_assoc]

/-- `add_audio` never changes the configuration fields. -/
theorem addAudio_config (st : AudioBuffer) (chunk : List Nat) (rms : Nat) (now : ℚ) :
    (addAudio st chunk rms now).1.silence_threshold = st.silence_threshold ∧
    (addAudio st chunk rms now).1.silence_duration_ms = st.silence_duration_ms ∧
    (addAudio st chunk rms now).1.min_speech_duration_ms = st.min_speech_duration_ms := by
  unfold addAudio resetBuffer
  split_ifs <;>
    simp [apply_ite Prod.fst, apply_ite AudioBuffer.silence_threshold,
      apply_ite AudioBuffer.silence_duration_ms, apply_ite AudioBuffer.min_speech_duration_ms]

theorem addAudio_silence_idle (st : AudioBuffer) (chunk : List Nat) (rms : Nat)
    (now : ℚ) (hr : rms ≤ st.silence_threshold) (hs : st.speech_started = false) :
    addAudio st chunk rms now = (st, none) := by
  unfold addAudio
  simp [hs, Nat.not_lt.mpr hr]

theorem addAudio_speech_begin (st : AudioBuffer) (chunk : List Nat) (rms : Nat)
    (now : ℚ) (hc : chunk ≠ []) (hr : st.silence_threshold < rms)
    (hs : st.speech_started = false) :
    addAudio st chunk rms now =
      ({ st with silence_start := none,
                 peak_rms := if st.peak_rms < rms then rms else st.peak_rms,
                 speech_started := true, speech_start := some now,
                 buffer := st.buffer ++ chunk }, none) := by
  unfold addAudio
  simp [hc, hr, hs]

theorem addAudio_speech_step (st : AudioBuffer) (chunk : List Nat) (rms : Nat)
    (now : ℚ) (hc : chunk ≠ []) (hr : st.silence_threshold < rms)
    (hs : st.speech_started = true) :
    addAudio st chunk rms now =
      ({ st with silence_start := none,
                 peak_rms := if st.peak_rms < rms then rms else st.peak_rms,
                 buffer := st.buffer ++ chunk }, none) := by
  unfold addAudio
  simp [hc, hr, hs]

theorem addAudio_silence_first (st : AudioBuffer) (chunk : List Nat) (rms : Nat)
    (now : ℚ) (hc : chunk ≠ []) (hr : rms ≤ st.silence_threshold)
    (hs : st.speech_started = true) (h0 : st.silence_start = none)
    (hsil : 0 < st.silence_duration_ms) :
    addAudio st chunk rms now =
      ({ st with buffer := st.buffer ++ chunk, silence_start := some now }, none) := by
  unfold addAudio
  simp [hc, hs, h0, Nat.not_lt.mpr hr, not_le.mpr hsil]

theorem addAudio_silence_wait (st : AudioBuffer) (chunk : List Nat) (rms : Nat)
    (now t0 : ℚ) (hc : chunk ≠ []) (hr : rms ≤ st.silence_threshold)
    (hs : st.speech_started = true) (h0 : st.silence_start = some t0)
    (hlt : (now - t0) * 1000 < st.silence_duration_ms) :
    addAudio st chunk rms now =
      ({ st with buffer := st.buffer ++ chunk }, none) := by
  unfold addAudio
  simp [hc, hs, h0, Nat.not_lt.mpr hr, not_le.mpr hlt]

theorem addAudio_silence_trigger (st : AudioBuffer) (chunk : List Nat) (rms : Nat)
    (now t0 tB : ℚ) (hc : chunk ≠ []) (hr : rms ≤ st.silence_threshold)
    (hs : st.speech_started = true) (h0 : st.silence_start = some t0)
    (hB : st.speech_start = some tB)
    (hge : st.silence_duration_ms ≤ (now - t0) * 1000)
    (hmin : st.min_speech_duration_ms ≤ (now - tB) * 1000) :
    addAudio st chunk rms now = (resetBuffer st, some (st.buffer ++ chunk)) := by
  unfold addAudio resetBuffer
  simp [hc, hs, h0, hB, Nat.not_lt.mpr hr, hge, hmin]

theorem addAudio_silence_discard (st : AudioBuffer) (chunk : List Nat) (rms : Nat)
    (now t0 tB : ℚ) (hc : chunk ≠ []) (hr : rms ≤ st.silence_threshold)
    (hs : st.speech_started = true) (h0 : st.silence_start = some t0)
    (hB : st.speech_start = some tB)
    (hge : st.silence_duration_ms ≤ (now - t0) * 1000)
    (hmin : (now - tB) * 1000 < st.min_speech_duration_ms) :
    addAudio st chunk rms now = (resetBuffer st, none) := by
  unfold addAudio resetBuffer
  simp [hc, hs, h0, hB, Nat.not_lt.mpr hr, hge, not_le.mpr hmin]

/-- While no speech has started, silence frames leave the segmenter
untouched and emit nothing. -/
theorem runFrames_silence_idle (fs : List AFrame) (st : AudioBuffer)
    (hs : st.speech_started = false)
    (hall : ∀ f ∈ fs, f.rms ≤ st.silence_threshold) :
    runFrames st fs = (st, []) := by
  induction fs with
  | nil => rfl
  | cons f fs ih =>
    have hf := hall f (by simp)
    rw [runFrames, addAudio_silence_idle st f.chunk f.rms f.t hf hs]
    simp [ih fun g hg => hall g (by simp [hg])]

/-- A run of speech frames keeps speech active, preserves the recorded
speech start, resets the silence clock and emits nothing. -/
theorem runFrames_speech (fs : List AFrame) (st : AudioBuffer)
    (hs : st.speech_started = true) (h0 : st.silence_start = none)
    (hall : ∀ f ∈ fs, st.silence_threshold < f.rms ∧ f.chunk ≠ []) :
    (runFrames st fs).2 = [] ∧
    (runFrames st fs).1.speech_started = true ∧
    (runFrames st fs).1.speech_start = st.speech_start ∧
    (runFrames st fs).1.silence_start = none ∧
    (runFrames st fs).1.silence_threshold = st.silence_threshold ∧
    (runFrames st fs).1.silence_duration_ms = st.silence_duration_ms ∧
    (runFrames st fs).1.min_speech_duration_ms = st.min_speech_duration_ms := by
  induction fs generalizing st with
  | nil => simp [runFrames, h0, hs]
  | cons f fs ih =>
    have hf := hall f (by simp)
    rw [runFrames, addAudio_speech_step st f.chunk f.rms f.t hf.2 hf.1 hs]
    have ihh := ih { st with
        silence_start := none,
        peak_rms := if st.peak_rms < f.rms then f.rms else st.peak_rms,
        buffer := st.buffer ++ f.chunk } hs rfl
      (fun g hg => hall g (List.mem_cons_of_mem f hg))
    simpa using ihh

/-- Once the silence clock is running at `t0` with speech begun at
`tB ≤ t0`, a silence run containing some frame at least `silence_ms`
after `t0` emits exactly one utterance, provided the configured
`min_speech_ms` does not exceed `silence_ms`. -/
theorem runFrames_trigger (cs : List AFrame) (st : AudioBuffer) (t0 tB : ℚ)
    (hs : st.speech_started = true) (hB : st.speech_start = some tB)
    (h0 : st.silence_start = some t0) (hBt0 : tB ≤ t0)
    (hminsil : st.min_speech_duration_ms ≤ st.silence_duration_ms)
    (hall : ∀ f ∈ cs, f.rms ≤ st.silence_threshold ∧ f.chunk ≠ [])
    (hex : ∃ f ∈ cs, st.silence_duration_ms ≤ (f.t - t0) * 1000) :
    (runFrames st cs).2.length = 1 := by
  induction cs generalizing st with
  | nil => simp at hex
  | cons f fs ih =>
    have hf := hall f (by simp)
    by_cases htrig : st.silence_duration_ms ≤ (f.t - t0) * 1000
    · have hdur : st.min_speech_duration_ms ≤ (f.t - tB) * 1000 := by
        have h1 : (f.t - t0) * 1000 ≤ (f.t - tB) * 1000 := by
          have := sub_le_sub_left hBt0 f.t
          nlinarith
        linarith
      rw [runFrames, addAudio_silence_trigger st f.chunk f.rms f.t t0 tB
        hf.2 hf.1 hs h0 hB htrig hdur]
      have hrest : runFrames (resetBuffer st) fs = (resetBuffer st, []) := by
        apply runFrames_silence_idle fs (resetBuffer st) rfl
        intro g hg
        simpa [resetBuffer] using (hall g (List.mem_cons_of_mem f hg)).1
      simp [hrest]
    · rw [runFrames, addAudio_silence_wait st f.chunk f.rms f.t t0 hf.2 hf.1 hs h0
        (not_le.mp htrig)]
      have hex2 : ∃ g ∈ fs, st.silence_duration_ms ≤ (g.t - t0) * 1000 := by
        rcases hex with ⟨g, hg, hgt⟩
        rcases List.mem_cons.mp hg with h | h
        · exact absurd (h ▸ hgt) htrig
        · exact ⟨g, h, hgt⟩
      have ihh := ih { st with buffer := st.buffer ++ f.chunk } hs hB h0 hminsil
        (fun g hg => hall g (List.mem_cons_of_mem f hg)) hex2
      simpa using ihh

/- ====================================================================
   Helper lemmas about text processing
   ==================================================================== -/

theorem toLower_of_isWhitespace (c : Char) (h : c.isWhitespace = true) :
    Char.toLower c = c := by
  simp only [Char.isWhitespace, Bool.or_eq_true, decide_eq_true_eq] at h
  rcases h with ((h | h) | h) | h <;> subst h <;> decide

theorem pyStrip_eq_nil_iff (l : List Char) :
    pyStrip l = [] ↔ ∀ c ∈ l, c.isWhitespace := by
  unfold pyStrip
  constructor
  · intro h
    have h2 : (l.dropWhile Char.isWhitespace).reverse.dropWhile Char.isWhitespace
        = [] := by
      have := congrArg List.reverse h
      simpa using this
    have h3 := List.dropWhile_eq_nil_iff.mp h2
    intro c hc
    have hl : c ∈ l.takeWhile Char.isWhitespace ++ l.dropWhile Char.isWhitespace := by
      rw [List.takeWhile_append_dropWhile]
      exact hc
    rcases List.mem_append.mp hl with h4 | h4
    · exact List.mem_takeWhile_imp h4
    · exact h3 c (List.mem_reverse.mpr h4)
  · intro h
    have h0 : l.dropWhile Char.isWhitespace = [] :=
      List.dropWhile_eq_nil_iff.mpr h
    simp [h0]

theorem alistLookup_mem {α : Type} (k : String) (l : List (String × α)) (v : α)
    (h : alistLookup k l = some v) : v ∈ l.map Prod.snd := by
  induction l with
  | nil => simp [alistLookup] at h
  | cons p rest ih =>
    obtain ⟨k1, v1⟩ := p
    by_cases hk : k1 = k
    · simp [alistLookup, hk] at h
      simp [h]
    · simp [alistLookup, hk] at h
      simp [ih h]

/-- A quick-reply hit means the caller text survives the guard
`not caller_text or not caller_text.strip()` of `respond`. -/
theorem quick_hit_strip_ne (t q : String) (hq : get_quick_response t = some q) :
    pyStrip t.data ≠ [] := by
  intro hstrip
  have hall : ∀ c ∈ t.data, c.isWhitespace = true := (pyStrip_eq_nil_iff _).mp hstrip
  have hlow : pyLower t.data = t.data := by
    unfold pyLower
    rw [List.map_congr_left fun c hc => toLower_of_isWhitespace c (hall c hc)]
    exact List.map_id t.data
  have hnorm : normalizeQuick t = ⟨[]⟩ := by
    unfold normalizeQuick
    rw [hlow, hstrip]
    rfl
  have hnone : alistLookup (⟨[]⟩ : String) QUICK_RESPONSES = none := by decide
  rw [get_quick_response, hnorm, hnone] at hq
  exact Option.noConfusion hq

/-- Every quick-reply value in the lexicon is a nonempty string, so the
Python truthiness test `if quick:` always takes the shortcut on a hit. -/
theorem quick_value_ne_empty (t q : String) (hq : get_quick_response t = some q) :
    q ≠ "" := by
  intro hempty
  have hm := alistLookup_mem _ _ _ hq
  rw [hempty] at hm
  revert hm
  decide

/-- `containsSub` decides the Python substring relation. -/
theorem containsSub_iff (needle hay : List Char) :
    containsSub needle hay = true ↔ ∃ pre post, hay = pre ++ needle ++ post := by
  induction hay with
  | nil =>
    simp [containsSub, List.isEmpty_iff]
  | cons c rest ih =>
    rw [containsSub]
    simp only [Bool.or_eq_true, ih, List.isPrefixOf_iff_prefix]
    constructor
    · rintro (⟨tl, htl⟩ | ⟨pre, post, rfl⟩)
      · exact ⟨[], tl, by simpa using htl.symm⟩
      · exact ⟨c :: pre, post, by simp⟩
    · rintro ⟨pre, post, hp⟩
      cases pre with
      | nil =>
        left
        exact ⟨post, by simpa using hp.symm⟩
      | cons a pre2 =>
        right
        simp at hp
        refine ⟨pre2, post, ?_⟩
        rw [List.append_assoc]
        exact hp.2

/- ====================================================================
   Helper lemmas about the scheduled-action manager
   ==================================================================== -/

theorem alistLookup_eraseKey_self {α : Type} (k : String) (l : List (String × α)) :
    alistLookup k (l.filter (fun p => p.1 != k)) = none := by
  induction l with
  | nil => rfl
  | cons p rest ih =>
    obtain ⟨k1, v1⟩ := p
    rw [List.filter_cons]
    by_cases hk : k1 = k
    · simpa [hk] using ih
    · have hb : (k1 != k) = true := bne_iff_ne.mpr hk
      simpa [hb, alistLookup, hk] using ih

theorem alistLookup_eraseKey_ne {α : Type} (k k2 : String) (l : List (String × α))
    (hne : k2 ≠ k) :
    alistLookup k2 (l.filter (fun p => p.1 != k)) = alistLookup k2 l := by
  induction l with
  | nil => rfl
  | cons p rest ih =>
    obtain ⟨k1, v1⟩ := p
    rw [List.filter_cons]
    by_cases hk : k1 = k
    · simp [hk, alistLookup, Ne.symm hne, ih]
    · have hb : (k1 != k) = true := bne_iff_ne.mpr hk
      by_cases h12 : k1 = k2
      · simp [hb, alistLookup, h12, hne]
      · simp [hb, alistLookup, h12, ih]

/-- The invariant maintained by the scheduled-action table: ids are
below the fresh counter, and for every key the live created tasks are
exactly what the dict records. -/
def LocInv (s : LocState) : Prop :=
  (∀ t ∈ s.created, t.id < s.next) ∧
  (∀ i ∈ s.cancelled, i < s.next) ∧
  (s.created.map LocTask.id).Nodup ∧
  (∀ k, pendingFor s k =
    (match alistLookup k s.pending with
     | some id => [⟨id, k⟩]
     | none => []))

theorem locInv_init : LocInv {} := by
  refine ⟨by simp, by simp, by simp, fun k => ?_⟩
  simp [pendingFor, alistLookup]

/-- Marking one live task id as cancelled empties the live-task set for
its key. -/
theorem filter_cancel_self (created : List LocTask) (cancelled : List Nat)
    (k : String) (id : Nat)
    (hpend : created.filter (fun t => t.key == k && !(cancelled.contains t.id))
      = [⟨id, k⟩]) :
    created.filter (fun t => t.key == k && !((id :: cancelled).contains t.id))
      = [] := by
  rw [List.filter_eq_nil_iff]
  intro t ht hpred
  simp only [Bool.and_eq_true, beq_iff_eq, List.contains_cons, Bool.not_eq_true',
    Bool.or_eq_false_iff, beq_eq_false_iff_ne] at hpred
  obtain ⟨hkey, hid, hcanc⟩ := hpred
  have htmem : t ∈ created.filter (fun t => t.key == k && !(cancelled.contains t.id)) := by
    rw [List.mem_filter]
    refine ⟨ht, ?_⟩
    simp [hkey]
    simpa using hcanc
  rw [hpend] at htmem
  simp at htmem
  exact hid (by rw [htmem])

/-- Marking a live task id of key `k` as cancelled does not change the
live-task set of any other key, because ids are unique. -/
theorem filter_cancel_ne (created : List LocTask) (cancelled : List Nat)
    (k k2 : String) (id : Nat)
    (hN : (created.map LocTask.id).Nodup)
    (hpend : created.filter (fun t => t.key == k && !(cancelled.contains t.id))
      = [⟨id, k⟩])
    (hne : k2 ≠ k) :
    created.filter (fun t => t.key == k2 && !((id :: cancelled).contains t.id))
      = created.filter (fun t => t.key == k2 && !(cancelled.contains t.id)) := by
  have hidmem : (⟨id, k⟩ : LocTask) ∈ created := by
    have : (⟨id, k⟩ : LocTask) ∈
        created.filter (fun t => t.key == k && !(cancelled.contains t.id)) := by
      rw [hpend]
      simp
    exact List.mem_of_mem_filter this
  apply List.filter_congr
  intro t ht
  by_cases hkey : t.key = k2
  · by_cases hid : t.id = id
    · exfalso
      have hteq : t = ⟨id, k⟩ :=
        List.inj_on_of_nodup_map hN ht hidmem hid
      rw [hteq] at hkey
      exact hne hkey.symm
    · simp [List.contains_cons, hid]
  · have hb : (t.key == k2) = false := beq_eq_false_iff_ne.mpr hkey
    simp [hb]

theorem scheduleLoc_cancels_existing (s : LocState) (k : String) (id : Nat)
    (h : alistLookup k s.pending = some id) :
    id ∈ (scheduleLoc s k).cancelled := by
  simp [scheduleLoc, h]

theorem cancelLoc_idem (s : LocState) (k : String) :
    (cancelLoc (cancelLoc s k).1 k).1 = (cancelLoc s k).1 := by
  rcases hlk : alistLookup k s.pending with _ | id
  · simp [cancelLoc, hlk]
  · simp [cancelLoc, hlk, eraseKey, alistLookup_eraseKey_self]

theorem locInv_schedule (s : LocState) (k : String) (h : LocInv s) :
    LocInv (scheduleLoc s k) := by
  obtain ⟨h1, h2, h3, h4⟩ := h
  have hfree : ∀ t ∈ s.created, t.id ≠ s.next :=
    fun t ht => Nat.ne_of_lt (h1 t ht)
  have hnotmap : s.next ∉ s.created.map LocTask.id := by
    intro hmem
    rcases List.mem_map.mp hmem with ⟨t, ht, hid⟩
    exact hfree t ht hid
  have hcfree : s.next ∉ s.cancelled := fun hmem => Nat.lt_irrefl _ (h2 _ hmem)
  rcases hlk : alistLookup k s.pending with _ | id
  · -- no existing entry for the key
    refine ⟨?_, ?_, ?_, ?_⟩
    · intro t ht
      simp only [scheduleLoc, hlk] at ht ⊢
      rcases List.mem_cons.mp ht with hh | hh
      · rw [hh]
        exact Nat.lt_succ_self _
      · exact Nat.lt_succ_of_lt (h1 t hh)
    · intro i hi
      simp only [scheduleLoc, hlk] at hi ⊢
      exact Nat.lt_succ_of_lt (h2 i hi)
    · simp only [scheduleLoc, hlk, List.map_cons]
      exact List.nodup_cons.mpr ⟨hnotmap, h3⟩
    · intro k2
      have hpk : pendingFor s k = [] := by
        rw [h4 k, hlk]
      by_cases hk2 : k2 = k
      · subst hk2
        simp only [scheduleLoc, hlk, pendingFor, alistLookup, if_pos rfl]
        rw [List.filter_cons]
        have hpred : ((⟨s.next, k2⟩ : LocTask).key == k2 &&
            !(s.cancelled.contains (⟨s.next, k2⟩ : LocTask).id)) = true := by
          simp
          simpa using hcfree
        rw [hpred]
        rw [pendingFor] at hpk
        rw [if_pos rfl, hpk]
        simp
      · have hne : (k2 : String) ≠ k := hk2
        have hcond : ¬ (k = k2) := fun hh => hne hh.symm
        simp only [scheduleLoc, hlk, pendingFor, alistLookup]
        rw [if_neg hcond, List.filter_cons]
        have hpred : ((⟨s.next, k⟩ : LocTask).key == k2 &&
            !(s.cancelled.contains (⟨s.next, k⟩ : LocTask).id)) = false := by
          have hb : ((⟨s.next, k⟩ : LocTask).key == k2) = false :=
            beq_eq_false_iff_ne.mpr hcond
          simp [hb]
        rw [hpred]
        simp only [Bool.false_eq_true, if_false]
        rw [eraseKey, alistLookup_eraseKey_ne k k2 s.pending hne]
        exact h4 k2
  · -- an existing entry is cancelled first
    have hpk : pendingFor s k = [⟨id, k⟩] := by
      rw [h4 k, hlk]
    have hidmem : (⟨id, k⟩ : LocTask) ∈ s.created :=
      List.mem_of_mem_filter (by rw [pendingFor] at hpk; rw [hpk]; simp)
    have hidlt : id < s.next := h1 _ hidmem
    refine ⟨?_, ?_, ?_, ?_⟩
    · intro t ht
      simp only [scheduleLoc, hlk] at ht ⊢
      rcases List.mem_cons.mp ht with hh | hh
      · rw [hh]
        exact Nat.lt_succ_self _
      · exact Nat.lt_succ_of_lt (h1 t hh)
    · intro i hi
      simp only [scheduleLoc, hlk] at hi ⊢
      rcases List.mem_cons.mp hi with hh | hh
      · rw [hh]
        exact Nat.lt_succ_of_lt hidlt
      · exact Nat.lt_succ_of_lt (h2 i hh)
    · simp only [scheduleLoc, hlk, List.map_cons]
      exact List.nodup_cons.mpr ⟨hnotmap, h3⟩
    · intro k2
      by_cases hk2 : k2 = k
      · subst hk2
        simp only [scheduleLoc, hlk, pendingFor, alistLookup, if_pos rfl]
        rw [List.filter_cons]
        have hpred : ((⟨s.next, k2⟩ : LocTask).key == k2 &&
            !((id :: s.cancelled).contains (⟨s.next, k2⟩ : LocTask).id)) = true := by
          simp [List.contains_cons]
          exact ⟨Nat.ne_of_gt hidlt, by simpa using hcfree⟩
        rw [hpred]
        have hnil := filter_cancel_self s.created s.cancelled k2 id
          (by rw [pendingFor] at hpk; exact hpk)
        rw [if_pos rfl, hnil]
        simp
      · have hne : (k2 : String) ≠ k := hk2
        have hcond : ¬ (k = k2) := fun hh => hne hh.symm
        simp only [scheduleLoc, hlk, pendingFor, alistLookup]
        rw [if_neg hcond, List.filter_cons]
        have hpred : ((⟨s.next, k⟩ : LocTask).key == k2 &&
            !((id :: s.cancelled).contains (⟨s.next, k⟩ : LocTask).id)) = false := by
          have hb : ((⟨s.next, k⟩ : LocTask).key == k2) = false :=
            beq_eq_false_iff_ne.mpr hcond
          simp [hb]
        rw [hpred]
        simp only [Bool.false_eq_true, if_false]
        rw [filter_cancel_ne s.created s.cancelled k k2 id h3
          (by rw [pendingFor] at hpk; exact hpk) hne]
        rw [eraseKey, alistLookup_eraseKey_ne k k2 s.pending hne]
        exact h4 k2

theorem locInv_cancel (s : LocState) (k : String) (h : LocInv s) :
    LocInv (cancelLoc s k).1 := by
  obtain ⟨h1, h2, h3, h4⟩ := h
  rcases hlk : alistLookup k s.pending with _ | id
  · simpa [cancelLoc, hlk] using ⟨h1, h2, h3, h4⟩
  · have hpk : pendingFor s k = [⟨id, k⟩] := by
      rw [h4 k, hlk]
    have hidmem : (⟨id, k⟩ : LocTask) ∈ s.created :=
      List.mem_of_mem_filter (by rw [pendingFor] at hpk; rw [hpk]; simp)
    have hidlt : id < s.next := h1 _ hidmem
    refine ⟨?_, ?_, ?_, ?_⟩
    · intro t ht
      simp only [cancelLoc, hlk] at ht ⊢
      exact h1 t ht
    · intro i hi
      simp only [cancelLoc, hlk] at hi ⊢
      rcases List.mem_cons.mp hi with hh | hh
      · rw [hh]
        exact hidlt
      · exact h2 i hh
    · simpa [cancelLoc, hlk] using h3
    · intro k2
      by_cases hk2 : k2 = k
      · subst hk2
        simp only [cancelLoc, hlk, pendingFor, eraseKey, alistLookup_eraseKey_self]
        exact filter_cancel_self s.created s.cancelled k2 id (by simpa [pendingFor] using hpk)
      · have hne : (k2 : String) ≠ k := hk2
        simp only [cancelLoc, hlk, pendingFor, eraseKey,
          alistLookup_eraseKey_ne k k2 s.pending hne]
        rw [filter_cancel_ne s.created s.cancelled k k2 id h3
          (by simpa [pendingFor] using hpk) hne]
        exact h4 k2

theorem locInv_apply (s : LocState) (op : LocOp) (h : LocInv s) :
    LocInv (applyLocOp s op) := by
  cases op with
  | schedule k => exact locInv_schedule s k h
  | cancel k => exact locInv_cancel s k h

theorem locInv_foldl (ops : List LocOp) (s : LocState) (h : LocInv s) :
    LocInv (ops.foldl applyLocOp s) := by
  induction ops generalizing s with
  | nil => exact h
  | cons op rest ih => exact ih _ (locInv_apply s op h)

theorem locInv_run (ops : List LocOp) : LocInv (runLoc ops) :=
  locInv_foldl ops {} locInv_init

theorem runFrames_cons (st : AudioBuffer) (f : AFrame) (fs : List AFrame) :
    runFrames st (f :: fs) =
      ((runFrames (addAudio st f.chunk f.rms f.t).1 fs).1,
        (addAudio st f.chunk f.rms f.t).2.toList ++
          (runFrames (addAudio st f.chunk f.rms f.t).1 fs).2) := rfl

/- ====================================================================
   Claim theorems
   ==================================================================== -/

/-- C1 (amended): on a stream `silence ‖ tone ‖ silence`, with some
silence frame at least `silence_ms` past the silence onset, the
segmenter emits exactly one utterance whenever the configuration has
`min_speech_ms ≤ silence_ms` (as the defaults 500 ≤ 1200 do) — the
duration it compares against `min_speech_ms` runs from speech start to
the frame that completes the silence window, so it includes the trailing
silence and does not require the tone itself to last `min_speech_ms`. -/
theorem c1_stream_emits_exactly_one
    (thresh : Nat) (sil minS : ℚ) (pre bs cs : List AFrame) (b c : AFrame)
    (hsil : 0 < sil) (hminsil : minS ≤ sil)
    (hpre : ∀ f ∈ pre, f.rms ≤ thresh)
    (hb1 : thresh < b.rms) (hb2 : b.chunk ≠ [])
    (hbs : ∀ f ∈ bs, thresh < f.rms ∧ f.chunk ≠ [])
    (hc1 : c.rms ≤ thresh) (hc2 : c.chunk ≠ [])
    (hcs : ∀ f ∈ cs, f.rms ≤ thresh ∧ f.chunk ≠ [])
    (hbc : b.t ≤ c.t)
    (htrig : ∃ f ∈ cs, sil ≤ (f.t - c.t) * 1000) :
    ((runFrames (mkBuffer thresh sil minS) (pre ++ b :: bs ++ c :: cs)).2).length
      = 1 := by
  set st0 : AudioBuffer := mkBuffer thresh sil minS with hst0def
  have hA : runFrames st0 pre = (st0, []) :=
    runFrames_silence_idle pre st0 rfl hpre
  have hbstep : addAudio st0 b.chunk b.rms b.t =
      ({ st0 with silence_start := none,
                  peak_rms := if st0.peak_rms < b.rms then b.rms else st0.peak_rms,
                  speech_started := true, speech_start := some b.t,
                  buffer := st0.buffer ++ b.chunk }, none) :=
    addAudio_speech_begin st0 b.chunk b.rms b.t hb2 hb1 rfl
  set st1 : AudioBuffer :=
    { st0 with silence_start := none,
               peak_rms := if st0.peak_rms < b.rms then b.rms else st0.peak_rms,
               speech_started := true, speech_start := some b.t,
               buffer := st0.buffer ++ b.chunk } with hst1def
  obtain ⟨e0, e1, e2, e3, e4, e5, e6⟩ := runFrames_speech bs st1 rfl rfl hbs
  set stB : AudioBuffer := (runFrames st1 bs).1 with hstBdef
  have hrC : c.rms ≤ stB.silence_threshold := by
    rw [e4]
    exact hc1
  have hsilC : 0 < stB.silence_duration_ms := by
    rw [e5]
    exact hsil
  have hcstep : addAudio stB c.chunk c.rms c.t =
      ({ stB with buffer := stB.buffer ++ c.chunk, silence_start := some c.t },
        none) :=
    addAudio_silence_first stB c.chunk c.rms c.t hc2 hrC e1 e3 hsilC
  set stC : AudioBuffer :=
    { stB with buffer := stB.buffer ++ c.chunk, silence_start := some c.t }
    with hstCdef
  have hm : stC.min_speech_duration_ms = minS := e6
  have hs2 : stC.silence_duration_ms = sil := e5
  have hT : (runFrames stC cs).2.length = 1 := by
    apply runFrames_trigger cs stC c.t b.t e1 e2 rfl hbc
    · rw [hm, hs2]
      exact hminsil
    · intro f hf
      refine ⟨?_, (hcs f hf).2⟩
      have h4 : stC.silence_threshold = thresh := e4
      rw [h4]
      exact (hcs f hf).1
    · rw [hs2]
      exact htrig
  simp only [runFrames_append, runFrames_cons, hA, hbstep]
  simp only [← hstBdef, e0]
  simp only [runFrames_cons, hcstep]
  simp [hT]

/-- C1 counterexample: with the default configuration the stream
`silence ‖ tone ‖ silence` of `shortToneFrames` has a tone lasting only
100 ms — below `min_speech_ms = 500` — yet the segmenter emits one
utterance (the buffered bytes `[1, 2, 3]`), refuting the claimed
"no emitted utterance otherwise". -/
theorem c1_counterexample_short_tone_emits :
    SILENCE_THRESHOLD < 600 ∧
    ((11 : ℚ)/10 - 1) * 1000 < MIN_SPEECH_DURATION_MS ∧
    (runFrames defaultBuffer shortToneFrames).2 = [[1, 2, 3]] := by
  refine ⟨by decide, ?_, ?_⟩
  · norm_num [MIN_SPEECH_DURATION_MS]
  · norm_num [runFrames, addAudio, resetBuffer, defaultBuffer, shortToneFrames,
      SILENCE_THRESHOLD, SILENCE_DURATION_MS, MIN_SPEECH_DURATION_MS,
      Option.getD_some, Option.getD_none, some_eq_none_false]

/-- Closed instance of the amended C1 theorem, on the default
configuration and a concrete four-frame stream. -/
theorem c1_stream_witness :
    ((runFrames (mkBuffer 500 1200 500)
      (([⟨[0], 0, 0⟩] : List AFrame) ++
        (⟨[1], 600, 1⟩ : AFrame) :: ([] : List AFrame) ++
        (⟨[2], 0, 11/10⟩ : AFrame) :: [(⟨[3], 0, 5/2⟩ : AFrame)])).2).length = 1 := by
  apply c1_stream_emits_exactly_one 500 1200 500 [⟨[0], 0, 0⟩] [] [⟨[3], 0, 5/2⟩]
    ⟨[1], 600, 1⟩ ⟨[2], 0, 11/10⟩
  · norm_num
  · norm_num
  · decide
  · decide
  · decide
  · simp
  · decide
  · decide
  · decide
  · norm_num
  · refine ⟨⟨[3], 0, 5/2⟩, by simp, by norm_num⟩

/-- C2 (amended): an utterance emitted by `add_audio` always passes the
`min_speech_ms` gate — the duration it measures runs from the recorded
speech start to the emitting instant — but `flush()` returns the
in-progress buffer exactly when it is nonempty with speech active,
performing no duration check, so sub-minimum utterances can still reach
the consumer at stream end. -/
theorem c2_emitted_meets_min_gate (st stf : AudioBuffer) (chunk out : List Nat)
    (rms : Nat) (now : ℚ)
    (h : (addAudio st chunk rms now).2 = some out) :
    st.min_speech_duration_ms ≤ (now - st.speech_start.getD now) * 1000 ∧
    (((flushBuffer stf).2).isSome ↔ stf.buffer ≠ [] ∧ stf.speech_started = true) := by
  constructor
  · unfold addAudio at h
    by_cases hc : chunk = []
    · simp [hc] at h
    · by_cases hr : st.silence_threshold < rms
      · simp [hc, hr] at h
      · by_cases hs : st.speech_started = true
        · rcases hss : st.silence_start with _ | t0
          · simp [hc, hr, hs, hss, Option.getD_some, Option.getD_none,
              some_eq_none_false] at h
            split_ifs at h with h1 h2
            all_goals simp_all
          · simp [hc, hr, hs, hss, Option.getD_some, Option.getD_none,
              some_eq_none_false] at h
            split_ifs at h with h1 h2
            all_goals simp_all
        · simp [hc, hr, hs] at h
  · unfold flushBuffer
    split_ifs with hcond
    · simpa using hcond
    · simpa using hcond

/-- Closed instance of the amended C2 theorem: the emission of the
`shortToneFrames` run satisfies the gate, and `flush` on a fresh buffer
returns nothing. -/
theorem c2_gate_witness :
    preEmitBuffer.min_speech_duration_ms ≤
      ((5 : ℚ)/2 - preEmitBuffer.speech_start.getD (5/2)) * 1000 ∧
    (((flushBuffer defaultBuffer).2).isSome ↔
      defaultBuffer.buffer ≠ [] ∧ defaultBuffer.speech_started = true) := by
  apply c2_emitted_meets_min_gate preEmitBuffer defaultBuffer [3] [1, 2, 3] 0 (5/2)
  norm_num [addAudio, resetBuffer, preEmitBuffer, SILENCE_THRESHOLD,
    SILENCE_DURATION_MS, MIN_SPEECH_DURATION_MS, Option.getD_some,
    Option.getD_none, some_eq_none_false]

/-- C2 counterexample: one 20 ms tone frame, then `flush()`: the
segmenter hands the consumer an utterance whose speech segment measures
20 ms, far below `min_speech_ms = 500` — `flush` performs no duration
check, refuting "candidates shorter than min_speech_ms are discarded and
never emitted". -/
theorem c2_counterexample_flush_short :
    (flushBuffer (runFrames defaultBuffer [⟨[7], 600, 0⟩]).1).2 = some [7] ∧
    getSpeechDurationMs (runFrames defaultBuffer [⟨[7], 600, 0⟩]).1 (1/50) = 20 ∧
    (20 : ℤ) < 500 := by
  have hstate : (runFrames defaultBuffer [⟨[7], 600, 0⟩]).1 =
      { defaultBuffer with buffer := [7], speech_started := true,
                           speech_start := some 0, peak_rms := 600 } := by
    norm_num [runFrames, addAudio, defaultBuffer, SILENCE_THRESHOLD,
      Option.getD_some, Option.getD_none, some_eq_none_false]
  refine ⟨?_, ?_, by decide⟩
  · rw [hstate]
    norm_num [flushBuffer, resetBuffer, defaultBuffer]
  · rw [hstate]
    norm_num [getSpeechDurationMs, defaultBuffer]

/-- C3 (amended): the media handler requests hangup exactly when the
lowered AI reply contains a configured goodbye phrase as a substring AND
the caller transcript does not match the quick-reply lexicon; the pause
before the hangup request is the fixed `asyncio.sleep(3)` (3 s), not
`playback_duration + 500 ms`. -/
theorem c3_hangup_iff_goodbye_not_quick (transcript response : String) :
    (shouldHangup transcript response = true ↔
      (get_quick_response transcript = none ∧
        ∃ p ∈ GOODBYE_PHRASES, ∃ pre post,
          pyLower response.data = pre ++ p.data ++ post)) ∧
    HANGUP_SLEEP_SECONDS = 3 := by
  refine ⟨?_, rfl⟩
  rcases hq : get_quick_response transcript with _ | q
  · simp [shouldHangup, goodbyeInReply, hq, List.any_eq_true, containsSub_iff]
  · simp [shouldHangup, hq]

/-- C3 counterexample: the reply `"Arrivederci."` contains the goodbye
phrase `"arrivederci"` (case-insensitively), yet when the caller
transcript is the quick-reply input `"arrivederci"` no hangup is
requested; and the pre-hangup sleep is 3 s, not playback + 500 ms
(e.g. 1.5 s for a 1 s playback). -/
theorem c3_counterexample_quick_goodbye_no_hangup :
    goodbyeInReply "Arrivederci." = true ∧
    shouldHangup "arrivederci" "Arrivederci." = false ∧
    HANGUP_SLEEP_SECONDS ≠ 1 + 1/2 := by
  refine ⟨by decide, by decide, ?_⟩
  norm_num [HANGUP_SLEEP_SECONDS]

/-- C4: a caller text matching the quick-reply lexicon short-circuits
`respond`: the lexicon value is returned, no LLM call is made, usage is
recorded as `(0, 0)`, and both the caller message and the reply are
appended to the history; in particular `"grazie"` yields `"Prego."`. -/
theorem c4_quick_reply_no_llm (st : ConversationState) (prev : Nat × Nat)
    (callerText q : String) (llm : LLMOutcome)
    (hq : get_quick_response callerText = some q) :
    respond st prev callerText llm =
      { reply := some q,
        state := addAssistantMessage (addCallerMessage st callerText) q,
        lastUsage := (0, 0), llmCalled := false } ∧
    (addAssistantMessage (addCallerMessage st callerText) q).history =
      st.history ++ [⟨Role.user, callerText⟩, ⟨Role.assistant, q⟩] ∧
    get_quick_response "grazie" = some "Prego." := by
  refine ⟨?_, ?_, by decide⟩
  · have hstrip := quick_hit_strip_ne callerText q hq
    have hne := quick_value_ne_empty callerText q hq
    simp [respond, hstrip, hq, hne]
  · simp [addCallerMessage, addAssistantMessage]

/-- Closed instance of C4 at the input `"grazie"`. -/
theorem c4_quick_witness :
    respond nineTurnConv (7, 9) "grazie" LLMOutcome.apiError =
      { reply := some "Prego.",
        state := addAssistantMessage (addCallerMessage nineTurnConv "grazie")
          "Prego.",
        lastUsage := (0, 0), llmCalled := false } ∧
    (addAssistantMessage (addCallerMessage nineTurnConv "grazie")
        "Prego.").history =
      nineTurnConv.history ++
        [⟨Role.user, "grazie"⟩, ⟨Role.assistant, "Prego."⟩] ∧
    get_quick_response "grazie" = some "Prego." :=
  c4_quick_reply_no_llm nineTurnConv (7, 9) "grazie" "Prego."
    LLMOutcome.apiError (by decide)

/-- C5: when the LLM API raises an `APIError`, `respond` returns the
fixed stall phrase, records zero token usage, appends the stall phrase
to the history as an assistant message, and the caller message stays
recorded — the error does not escape to the caller. -/
theorem c5_api_error_stall (st : ConversationState) (prev : Nat × Nat)
    (callerText : String)
    (hstrip : pyStrip callerText.data ≠ [])
    (hq : get_quick_response callerText = none) :
    respond st prev callerText LLMOutcome.apiError =
      { reply := some FALLBACK_PHRASE,
        state := addAssistantMessage (addCallerMessage st callerText)
          FALLBACK_PHRASE,
        lastUsage := (0, 0), llmCalled := true } ∧
    (addAssistantMessage (addCallerMessage st callerText)
        FALLBACK_PHRASE).history =
      st.history ++
        [⟨Role.user, callerText⟩, ⟨Role.assistant, FALLBACK_PHRASE⟩] := by
  constructor
  · simp [respond, hstrip, hq, respondViaLLM]
  · simp [addCallerMessage, addAssistantMessage]

/-- Closed instance of C5 at the non-lexicon input `"che ore sono"`. -/
theorem c5_api_error_witness :
    respond nineTurnConv (7, 9) "che ore sono" LLMOutcome.apiError =
      { reply := some FALLBACK_PHRASE,
        state := addAssistantMessage (addCallerMessage nineTurnConv "che ore sono")
          FALLBACK_PHRASE,
        lastUsage := (0, 0), llmCalled := true } ∧
    (addAssistantMessage (addCallerMessage nineTurnConv "che ore sono")
        FALLBACK_PHRASE).history =
      nineTurnConv.history ++
        [⟨Role.user, "che ore sono"⟩, ⟨Role.assistant, FALLBACK_PHRASE⟩] :=
  c5_api_error_stall nineTurnConv (7, 9) "che ore sono" (by decide) (by decide)

/-- C6 (amended): `whisper_completed` emits `LOW_CONFIDENCE` exactly
when the call has an active session and the confidence lies strictly
between 0 and the 0.80 threshold — a confidence of exactly 0 (the
default, meaning no confidence information) does not trigger it. -/
theorem c6_low_confidence_iff (sessionExists : Bool) (transcript : String)
    (confidence : ℚ) (recentAI : List String)
    (recentCaller : List (Nat × String))
    (echoScore : String → List String → ℚ)
    (repeatScore : String → List (Nat × String) → ℚ × Nat) :
    AnEvent.lowConfidence ∈
        whisperCompletedEvents sessionExists transcript confidence recentAI
          recentCaller echoScore repeatScore ↔
      (sessionExists = true ∧ 0 < confidence ∧
        confidence < CONFIDENCE_THRESHOLD) := by
  unfold whisperCompletedEvents
  cases sessionExists
  · simp
  · simp only [Bool.not_true, Bool.false_eq_true, if_false, List.mem_append]
    split_ifs with h1 h2 h3 <;> simp_all

/-- C6 counterexample: on an active session a confidence of exactly 0 —
strictly below the 0.80 threshold — emits no `LOW_CONFIDENCE` event,
because the source guards with `confidence > 0`. -/
theorem c6_counterexample_zero_confidence :
    (0 : ℚ) < CONFIDENCE_THRESHOLD ∧
    AnEvent.lowConfidence ∉
      whisperCompletedEvents true "ciao" 0 [] [] (fun _ _ => 0)
        (fun _ _ => (0, 0)) := by
  constructor
  · norm_num [CONFIDENCE_THRESHOLD]
  · simp [whisperCompletedEvents]

/-- C7 (amended): the message list `respond` passes to the LLM is
exactly the last 8 history entries after the caller message is appended
(`history[-8:]`, i.e. `2 ·` the config default of 4 turns): a suffix of
the history of length `min 8 (len + 1)`.  The configured
`claude.context_turns` value is not consulted. -/
theorem c7_messages_last_eight (st : ConversationState) (t : String) :
    messagesSentToLLM st t = (st.history ++ [(⟨Role.user, t⟩ : Msg)]).rtake 8 ∧
    (messagesSentToLLM st t).length = min 8 (st.history.length + 1) ∧
    messagesSentToLLM st t <:+ st.history ++ [⟨Role.user, t⟩] ∧
    2 * CONTEXT_TURNS_DEFAULT = 8 := by
  refine ⟨rfl, ?_, ?_, rfl⟩
  · simp [messagesSentToLLM, getMessages, addCallerMessage]
    omega
  · exact List.drop_suffix _ _

/-- C7 counterexample: with `context_turns = 1` (inside the validated
range [1, 20]) the claim predicts a 2-entry window, but on a 9-entry
history the code still passes the last 8 entries. -/
theorem c7_counterexample_fixed_window :
    CONTEXT_TURNS_MIN ≤ 1 ∧ 1 ≤ CONTEXT_TURNS_MAX ∧
    messagesSentToLLM nineTurnConv "u5" ≠
      (nineTurnConv.history ++ [(⟨Role.user, "u5"⟩ : Msg)]).rtake (2 * 1) := by
  refine ⟨by decide, by decide, by decide⟩

/-- C8: for every key, any sequence of schedule/cancel operations from
the empty table leaves at most one pending (created and never cancelled)
task for that key; scheduling over an existing entry cancels it; and a
second consecutive `cancel` of the same key leaves the state of the
first. -/
theorem c8_scheduler_properties (ops : List LocOp) (k : String) (s : LocState)
    (id : Nat) :
    (pendingFor (runLoc ops) k).length ≤ 1 ∧
    (alistLookup k s.pending = some id → id ∈ (scheduleLoc s k).cancelled) ∧
    (cancelLoc (cancelLoc s k).1 k).1 = (cancelLoc s k).1 := by
  refine ⟨?_, fun h => scheduleLoc_cancels_existing s k id h, cancelLoc_idem s k⟩
  have hinv := (locInv_run ops).2.2.2 k
  rcases hlk : alistLookup k (runLoc ops).pending with _ | i <;>
    rw [hlk] at hinv <;> simp [hinv]

/-- Closed instance of C8: two schedules for `"a"`, the cancellation of
a live task, and cancel idempotence on a one-task state. -/
theorem c8_scheduler_witness :
    (pendingFor (runLoc [LocOp.schedule "a", LocOp.schedule "a"]) "a").length ≤ 1 ∧
    0 ∈ (scheduleLoc locS0 "a").cancelled ∧
    (cancelLoc (cancelLoc locS0 "a").1 "a").1 = (cancelLoc locS0 "a").1 := by
  have h := c8_scheduler_properties [LocOp.schedule "a", LocOp.schedule "a"]
    "a" locS0 0
  exact ⟨h.1, h.2.1 (by decide), h.2.2⟩

/-- C9 (amended): while the AI is speaking, an incoming media frame is
dropped entirely — the segmenter state (its buffer included) is
unchanged and no utterance is produced, so no new turn starts and
playback is never interrupted. -/
theorem c9_media_dropped_while_speaking (st : AudioBuffer)
    (payload : Option (List Nat)) (rms : Nat) (now : ℚ) :
    handleMediaEvent true st payload rms now = (st, none) := by
  simp [handleMediaEvent]

/-- C9 counterexample: with `is_speaking` set, a nonempty frame is NOT
appended to the segmenter's buffer (the buffer stays empty), refuting
"frames are still collected into the segmenter's buffer for
analytics". -/
theorem c9_counterexample_frame_not_buffered :
    (handleMediaEvent true defaultBuffer (some [5]) 600 0).1.buffer =
      defaultBuffer.buffer ∧
    defaultBuffer.buffer ++ [5] ≠ defaultBuffer.buffer := by
  exact ⟨rfl, by decide⟩

/-- C10: `add_caller_message` and `add_assistant_message` each append
exactly one history entry and increment `turn_count` by one, so from
`start_conversation` (greeting pre-recorded) onward `turn_count` always
equals the history length, and a full caller+AI exchange raises it by
two. -/
theorem c10_turn_count_tracks_history (sid cn sp name : String)
    (ops : List ConvOp) (st : ConversationState) (t u : String) :
    (runConv (startConversation sid cn sp name) ops).turn_count =
      (runConv (startConversation sid cn sp name) ops).history.length ∧
    (addCallerMessage st t).history = st.history ++ [⟨Role.user, t⟩] ∧
    (addCallerMessage st t).turn_count = st.turn_count + 1 ∧
    (addAssistantMessage st t).history = st.history ++ [⟨Role.assistant, t⟩] ∧
    (addAssistantMessage st t).turn_count = st.turn_count + 1 ∧
    (addAssistantMessage (addCallerMessage st t) u).turn_count =
      st.turn_count + 2 := by
  refine ⟨?_, rfl, rfl, rfl, rfl, rfl⟩
  have key : ∀ (l : List ConvOp) (s : ConversationState),
      s.turn_count = s.history.length →
      (runConv s l).turn_count = (runConv s l).history.length := by
    intro l
    induction l with
    | nil => exact fun s h => h
    | cons op rest ih =>
      intro s h
      rw [runConv, List.foldl_cons]
      apply ih
      cases op <;> simp [applyConvOp, addCallerMessage, addAssistantMessage, h]
  apply key
  simp [startConversation, addAssistantMessage]
